import Mathlib

/-!
# Verification of the fngrnctr scratch-reveal animation (src/main.js)

Shallow embedding of the simulation core of `src/main.js`: a player-controlled
icon erases ("scratches") an opaque ink layer covering backdrop text; while the
player is idle the layer is re-inked; once enough of the sampled text region is
transparent the scene transitions to a fully-revealed epilogue.

Modelling conventions:
* All JS numbers are modelled as rationals (`ℚ`); `Math.floor` is `⌊·⌋`.
* The host math library (`Math.exp`, `Math.hypot`, `Math.sqrt`, `Math.cos`,
  `Math.sin`) is modelled as an explicit environment `MathEnv` of
  rational-valued functions.  Theorems that depend on analytic properties of
  these functions (e.g. `hypot` computing the Euclidean norm) take those
  properties as hypotheses at exactly the points where the code applies them.
* The ink canvas is a raster `Ink` with per-device-pixel alpha in `[0,1]`
  (canvas byte alpha `a ∈ [0,255]` corresponds to `a/255`; the byte threshold
  `alpha < 128` of `calculateRevealPercentage` becomes `α < 128/255`).
  Canvas compositing ops become pointwise updates:
  `source-over` fill at global alpha `s` is `α ↦ s + α·(1-s)`,
  `destination-out` fill at global alpha `s` is `α ↦ α·(1-s)`, and the
  soft radial brush multiplies by `1 - gradProfile (d/r)` inside the disc
  (idealized per-pixel sampling, no antialiasing).
* Per-frame module-level mutable state of the IIFE becomes the `Game`
  structure; the body of `loop` becomes the pure step `loopStep`, split into
  phase functions in exact source order.  The DOM/album-grid manipulation,
  drawing calls and the orbit visual are outside the simulation state and are
  not modelled (they read but never write the state above, except
  `window.location.href`, modelled by the `redirected` flag).
* Erase / re-ink operations performed by a frame are additionally recorded in
  a `FrameLog` so that temporal claims about "an erase was applied" are
  directly observable.
-/

namespace Fngrnctr

/-- JS `clamp(v, min, max) = Math.max(min, Math.min(max, v))` (main.js:15). -/
def clamp (v lo hi : ℚ) : ℚ := max lo (min hi v)

/-- Host math functions used by main.js, as an explicit environment. -/
structure MathEnv where
  exp : ℚ → ℚ
  hypot : ℚ → ℚ → ℚ
  sqrt : ℚ → ℚ
  cos : ℚ → ℚ
  sin : ℚ → ℚ

/-- JS `class Vec2` (main.js:17-26). -/
structure Vec2 where
  x : ℚ
  y : ℚ

/-- Method `Vec2.add` (component-wise, pure version of the in-place mutation). -/
def Vec2.add (a b : Vec2) : Vec2 := ⟨a.x + b.x, a.y + b.y⟩

/-- Method `Vec2.scale`. -/
def Vec2.scale (a : Vec2) (s : ℚ) : Vec2 := ⟨a.x * s, a.y * s⟩

/-- Method `Vec2.len() = Math.hypot(x, y)`. -/
def Vec2.len (a : Vec2) (env : MathEnv) : ℚ := env.hypot a.x a.y

/-- Method `Vec2.normalize()`: divide by the length unless it is not positive. -/
def Vec2.normalize (a : Vec2) (env : MathEnv) : Vec2 :=
  let l := env.hypot a.x a.y
  if 0 < l then ⟨a.x / l, a.y / l⟩ else a

/-- The key codes tracked by the keydown listener (main.js:66). -/
def trackedKeys : List String :=
  ["ArrowUp", "ArrowDown", "ArrowLeft", "ArrowRight", "KeyW", "KeyA", "KeyS", "KeyD", "Space"]

/-- JS `class Input` (main.js:56-100): held-key set and pointer state. -/
structure Input where
  keys : List String
  pointerActive : Bool
  pointerPos : Vec2

/-- keydown listener (main.js:64-70): add a tracked key (set semantics). -/
def Input.onKeyDown (k : String) (s : Input) : Input :=
  if trackedKeys.contains k then
    { s with keys := if s.keys.contains k then s.keys else k :: s.keys }
  else s

/-- keyup listener (main.js:71): delete the key from the set. -/
def Input.onKeyUp (k : String) (s : Input) : Input :=
  { s with keys := s.keys.filter (fun q => q ≠ k) }

/-- Handler `start(x, y)` run by the pointerdown listener (main.js:73,77-81). -/
def Input.onPointerDown (x y : ℚ) (s : Input) : Input :=
  { s with pointerActive := true, pointerPos := ⟨x, y⟩ }

/-- Handler `move(x, y)` run by the pointermove listener (main.js:74,82). -/
def Input.onPointerMove (x y : ℚ) (s : Input) : Input :=
  if s.pointerActive then { s with pointerPos := ⟨x, y⟩ } else s

/-- Handler `end()` (main.js:75). -/
def Input.onPointerEnd (s : Input) : Input := { s with pointerActive := false }

/-- pointerup listener (main.js:83): calls `end()`. -/
def Input.onPointerUp (s : Input) : Input := s.onPointerEnd

/-- pointercancel listener (main.js:84): calls `end()`. -/
def Input.onPointerCancel (s : Input) : Input := s.onPointerEnd

/-- The raw (pre-normalization) axis sums of `getAxis` (main.js:87-91). -/
def Input.rawAxis (s : Input) : ℚ × ℚ :=
  ((if s.keys.contains "ArrowLeft" || s.keys.contains "KeyA" then (-1 : ℚ) else 0)
    + (if s.keys.contains "ArrowRight" || s.keys.contains "KeyD" then (1 : ℚ) else 0),
   (if s.keys.contains "ArrowUp" || s.keys.contains "KeyW" then (-1 : ℚ) else 0)
    + (if s.keys.contains "ArrowDown" || s.keys.contains "KeyS" then (1 : ℚ) else 0))

/-- Method `Input.getAxis()` (main.js:86-96). -/
def Input.getAxis (s : Input) (env : MathEnv) : Vec2 :=
  let k : Vec2 := ⟨s.rawAxis.1, s.rawAxis.2⟩
  if 0 < k.len env then k.normalize env else k

/-- Method `Input.getPointerTarget()` (main.js:97-99). -/
def Input.getPointerTarget (s : Input) : Option Vec2 :=
  if s.pointerActive then some s.pointerPos else none

/-- JS `input.pointerActive || input.keys.size > 0` (main.js:741). -/
def Input.isActive (s : Input) : Bool :=
  s.pointerActive || !s.keys.isEmpty

/-- Global `state.size` (main.js:28): CSS viewport size and effective pixel ratio. -/
structure Size where
  w : ℚ
  h : ℚ
  dpr : ℚ

/-- JS `class Player` state (main.js:102-110). -/
structure Player where
  pos : Vec2
  vel : Vec2
  size : ℚ
  accel : ℚ
  maxSpeed : ℚ
  drag : ℚ

/-- The `Player` constructor (main.js:103-110). -/
def Player.init (sz : Size) : Player :=
  ⟨⟨sz.w / 2, sz.h / 2⟩, ⟨0, 0⟩, 42, 1000, 500, 5/2⟩

/-- The mode-specific part of `Player.update` (main.js:112-143): pointer
follow, keyboard accelerate + drag, or drag only. -/
def Player.modeStep (p : Player) (env : MathEnv) (dt : ℚ) (inp : Input) (allow : Bool) : Player :=
  match inp.getPointerTarget with
  | some t =>
    if allow = true then
      let dx := t.x - p.pos.x
      let dy := t.y - p.pos.y
      let distance := env.hypot dx dy
      if 1 < distance then { p with vel := ⟨dx * 12, dy * 12⟩ }
      else { p with pos := t, vel := ⟨0, 0⟩ }
    else { p with vel := p.vel.scale (env.exp (-(p.drag * dt))) }
  | none =>
    if allow = true then
      let dir := inp.getAxis env
      let v1 := if 0 < dir.len env then p.vel.add (dir.scale (p.accel * dt)) else p.vel
      { p with vel := v1.scale (env.exp (-(p.drag * dt))) }
    else { p with vel := p.vel.scale (env.exp (-(p.drag * dt))) }

/-- Method `Player.update` (main.js:111-163): mode step, speed clamp, integration,
boundary clamp and edge bounce, in source order. -/
def Player.update (p : Player) (env : MathEnv) (dt : ℚ) (inp : Input) (allow : Bool)
    (sz : Size) : Player :=
  let p1 := p.modeStep env dt inp allow
  let speed := env.hypot p1.vel.x p1.vel.y
  let v := if p1.maxSpeed < speed then p1.vel.scale (p1.maxSpeed / speed) else p1.vel
  let pos1 := p1.pos.add (v.scale dt)
  let half := p1.size / 2
  let px := clamp pos1.x half (sz.w - half)
  let py := clamp pos1.y half (sz.h - half)
  let vx1 := if px = half ∧ v.x < 0 then v.x * (-(3/10)) else v.x
  let vx2 := if px = sz.w - half ∧ 0 < vx1 then vx1 * (-(3/10)) else vx1
  let vy1 := if py = half ∧ v.y < 0 then v.y * (-(3/10)) else v.y
  let vy2 := if py = sz.h - half ∧ 0 < vy1 then vy1 * (-(3/10)) else vy1
  { p1 with pos := ⟨px, py⟩, vel := ⟨vx2, vy2⟩ }

/-- The offscreen ink layer: integer pixel dimensions and per-device-pixel
alpha in `[0,1]` (`1` = fully covered black, `0` = fully revealed). -/
structure Ink where
  width : ℤ
  height : ℤ
  alpha : ℤ → ℤ → ℚ

/-- A fully covered ink layer (solid black fill). -/
def Ink.full (w h : ℤ) : Ink := ⟨w, h, fun _ _ => 1⟩

/-- Canvas `source-over` full-rect black fill at global alpha `step`
(main.js:803-807): `α ↦ step + α·(1-step)`. -/
def reinkOp (step : ℚ) (ink : Ink) : Ink :=
  { ink with alpha := fun i j => step + ink.alpha i j * (1 - step) }

/-- The hard full-coverage fill applied past 2s idle (main.js:811-814). -/
def hardFillOp (ink : Ink) : Ink := { ink with alpha := fun _ _ => 1 }

/-- Canvas `destination-out` full-rect fill at global alpha `a` (main.js:597-602):
`α ↦ α·(1-a)`. -/
def bleedOp (a : ℚ) (ink : Ink) : Ink :=
  { ink with alpha := fun i j => ink.alpha i j * (1 - a) }

/-- The radial gradient opacity of the erase brush at normalized distance `t`
(main.js:833-835): stops `(0,1)`, `(0.6,0.15)`, `(1,0)`, linear in between. -/
def gradProfile (t : ℚ) : ℚ :=
  if t ≤ 3/5 then 1 + (t / (3/5)) * (3/20 - 1)
  else 3/20 + ((t - 3/5) / (2/5)) * (0 - 3/20)

/-- The soft circular `destination-out` brush (main.js:831-840 / 848-857):
inside the disc of radius `r` (CSS units) around `(cx,cy)` multiply alpha by
`1 - gradProfile (d/r)`; pixels are sampled at device coordinates `/dpr`. -/
def applyBrush (env : MathEnv) (dpr cx cy r : ℚ) (ink : Ink) : Ink :=
  { ink with alpha := fun i j =>
      let d := env.hypot ((i : ℚ) / dpr - cx) ((j : ℚ) / dpr - cy)
      if d ≤ r then ink.alpha i j * (1 - gradProfile (d / r)) else ink.alpha i j }

/-- Function `resize()` (main.js:30-48): cap the device pixel ratio at 1.5 (the `|| 1`
maps a zero ratio to 1), floor the CSS size, size the canvases to
`floor(cssSize * dpr)` device pixels and refill the ink layer black. -/
def resizeCore (innerW innerH devPR : ℚ) : Size × Ink :=
  let d0 : ℚ := if devPR = 0 then 1 else devPR
  let dpr := min (3/2) d0
  let cw : ℤ := ⌊innerW⌋
  let ch : ℤ := ⌊innerH⌋
  let cwDev : ℤ := ⌊(cw : ℚ) * dpr⌋
  let chDev : ℤ := ⌊(ch : ℚ) * dpr⌋
  (⟨(cw : ℚ), (ch : ℚ), dpr⟩, Ink.full cwDev chDev)

/-- A full resize event: `resize()` (main.js:30-48) followed by the second
resize listener that re-clamps the player position (main.js:877-882). -/
def onResizeEvent (innerW innerH devPR : ℚ) (p : Player) : Size × Ink × Player :=
  let r := resizeCore innerW innerH devPR
  let half := p.size / 2
  (r.1, r.2,
   { p with pos := ⟨clamp p.pos.x half (r.1.w - half), clamp p.pos.y half (r.1.h - half)⟩ })

/-- Number of samples of the loop `for (v = a; v < b; v += 30)`. -/
def sampleCount (a b : ℚ) : ℕ := if a < b then (⌈(b - a) / 30⌉).toNat else 0

/-- The sample coordinates visited by `for (v = a; v < b; v += 30)`. -/
def samplePoints (a b : ℚ) : List ℚ :=
  (List.range (sampleCount a b)).map (fun k => a + 30 * (k : ℚ))

/-- Function `calculateRevealPercentage()` (main.js:547-577).  Returns 0 before the
first interaction; otherwise samples a 30px grid over the text region and
counts samples with alpha below half of the maximum (byte `128`, i.e.
`128/255` in the `[0,1]` model). -/
def calculateRevealPercentage (sz : Size) (hasInteracted : Bool) (ink : Ink) : ℚ :=
  if hasInteracted = false then 0 else
  let centerX : ℤ := ⌊sz.w / 2⌋
  let centerY : ℤ := ⌊sz.h / 2⌋
  let minSide := min sz.w sz.h
  let sampleWidth : ℤ := ⌊minSide * (1/2)⌋
  let sampleHeight : ℤ := ⌊minSide * (3/20)⌋
  let x0 : ℚ := max 0 ((centerX : ℚ) - (sampleWidth : ℚ) / 2)
  let y0 : ℚ := max 0 ((centerY : ℚ) - (sampleHeight : ℚ) / 2)
  let x1 : ℚ := min sz.w ((centerX : ℚ) + (sampleWidth : ℚ) / 2)
  let y1 : ℚ := min sz.h ((centerY : ℚ) + (sampleHeight : ℚ) / 2)
  let xs := samplePoints x0 x1
  let ys := samplePoints y0 y1
  let total : ℕ := xs.length * ys.length
  let revealed : ℕ := (xs.map (fun x =>
      ys.countP (fun y => decide (ink.alpha ⌊x * sz.dpr⌋ ⌊y * sz.dpr⌋ < 128/255)))).sum
  if 0 < total then (revealed : ℚ) / (total : ℚ) else 0

/-- The module-level mutable state driving `loop` (main.js:184-207,579). -/
structure Game where
  sz : Size
  player : Player
  hasInteracted : Bool
  inkAccumulator : ℚ
  isRevealed : Bool
  revealProgress : ℚ
  textYOffset : ℚ
  playerOpacity : ℚ
  fadeDelay : ℚ
  frameCount : ℕ
  redirectTimer : ℚ
  idleTime : ℚ
  jiggleActive : Bool
  postJigglePause : ℚ
  jiggleCycleCount : ℕ
  ink : Ink
  last : ℚ
  redirected : Bool

/-- The erase / re-ink operations a frame applied to the ink layer. -/
structure FrameLog where
  bleedApplied : Bool
  reinkStep : Option ℚ
  hardFill : Bool
  mainBrush : Option (ℚ × ℚ × ℚ)
  jiggleBrush : Option (ℚ × ℚ × ℚ)

/-- JS `dt = clamp((now - last) / 1000, 0, 0.05)` (main.js:581). -/
def dtOf (now last : ℚ) : ℚ := clamp ((now - last) / 1000) 0 (1/20)

/-- The rising-text vertical offset for reveal progress `rp` (main.js:607-614). -/
def textTargetOffset (sz : Size) (rp : ℚ) : ℚ :=
  let eased := 1 - (1 - rp)^3
  let minSide := min sz.w sz.h
  let fontSize : ℤ := ⌊minSide * (22/100)⌋
  let minMargin : ℚ := max 50 ((fontSize : ℚ) * (1/2))
  let targetY := minMargin + (fontSize : ℚ) / 2
  (sz.h / 2 - targetY) * eased

/-- The `if (isRevealed)` epilogue block (main.js:590-695): player fade and
ink bleed, text rise, redirect countdown.  Returns the updated state, whether
the `destination-out` bleed was applied, and whether the redirect fired
(which aborts the rest of the frame). -/
def epiloguePhase (dtv : ℚ) (g : Game) : Game × Bool × Bool :=
  if g.isRevealed = true then
    let fd := if g.fadeDelay < 2 then g.fadeDelay + dtv else g.fadeDelay
    let po := if g.fadeDelay < 2 then max 0 (1 - fd / 2) else g.playerOpacity
    let bled := if g.fadeDelay < 2 then true else false
    let ink1 := if g.fadeDelay < 2 then bleedOp ((fd / 2) * (1/2)) g.ink else g.ink
    let rp := if 3/2 ≤ fd ∧ g.revealProgress < 1 then
        min 1 (g.revealProgress + dtv * (333/1000)) else g.revealProgress
    let ty := if 3/2 ≤ fd ∧ g.revealProgress < 1 then textTargetOffset g.sz rp else g.textYOffset
    let rt := if 1 ≤ rp then g.redirectTimer + dtv else g.redirectTimer
    let red := if 1 ≤ rp ∧ 6 ≤ rt then true else false
    ({ g with fadeDelay := fd, playerOpacity := po, revealProgress := rp, textYOffset := ty,
              redirectTimer := rt, ink := ink1 }, bled, red)
  else (g, false, false)

/-- The jiggle-hint movement block (main.js:710-736): overwrite the player
velocity with the synthetic jiggle velocity, advance the jiggle timer and end
the cycle once its duration is reached.  `wall` models `Date.now() / 1000`. -/
def jigglePhase (env : MathEnv) (dtv wall : ℚ) (g : Game) : Game :=
  if g.jiggleActive = true ∧ g.hasInteracted = false then
    let freq : ℚ := 4
    let maxAmplitudeForCycle := min 6 (2 + (g.jiggleCycleCount : ℚ) * 2)
    let amplitude := min maxAmplitudeForCycle (1 + ((⌊g.idleTime / (1/2)⌋ : ℤ) : ℚ))
    let jvx := env.cos (wall * freq) * amplitude * 20
    let jvy := env.sin (wall * freq * (3/2)) * amplitude * 16
    let p2 := { g.player with vel := (⟨jvx, jvy⟩ : Vec2) }
    let idle2 := g.idleTime + dtv
    let durForCycle := min 3 (1 + (g.jiggleCycleCount : ℚ))
    if durForCycle ≤ idle2 then
      { g with player := p2, jiggleActive := false, idleTime := 0, postJigglePause := 0,
               jiggleCycleCount := g.jiggleCycleCount + 1 }
    else { g with player := p2, idleTime := idle2 }
  else g

/-- The first-interaction latch (main.js:743-752). -/
def interactPhase (isActive : Bool) (g : Game) : Game :=
  if g.hasInteracted = false ∧ isActive = true then
    if g.jiggleActive = true then
      { g with hasInteracted := true, jiggleActive := false, idleTime := 0, postJigglePause := 0,
               jiggleCycleCount := 0 }
    else { g with hasInteracted := true }
  else g

/-- The jiggle-hint scheduling block (main.js:754-776). -/
def hintPhase (dtv speed : ℚ) (isActive : Bool) (g : Game) : Game :=
  if g.hasInteracted = false ∧ isActive = false then
    if speed < 1/10 ∧ g.jiggleActive = false then
      let pp := g.postJigglePause + dtv
      if 5 ≤ pp then { g with jiggleActive := true, idleTime := 0, postJigglePause := 0 }
      else { g with postJigglePause := pp }
    else g
  else if isActive = true then
    { g with jiggleActive := false, idleTime := 0, postJigglePause := 0, jiggleCycleCount := 0 }
  else g

/-- The throttled reveal check (main.js:778-784). -/
def revealPhase (fc : ℕ) (isActive : Bool) (g : Game) : Game :=
  if g.isRevealed = false ∧ g.hasInteracted = true ∧ isActive = true ∧ fc % 5 = 0 then
    if 98/100 ≤ calculateRevealPercentage g.sz g.hasInteracted g.ink then
      { g with isRevealed := true }
    else g
  else g

/-- The re-ink block (main.js:786-815): accumulate idle time, compute the
accelerated alpha step and paint the layer back toward coverage, with a hard
fill past 2s idle.  Returns the applied step and hard-fill flag for the log. -/
def reinkPhase (dtv : ℚ) (isActive : Bool) (g : Game) : Game × Option ℚ × Bool :=
  if (g.hasInteracted = true ∨ 0 < g.postJigglePause ∨ 0 < g.idleTime) ∧ g.isRevealed = false then
    let acc := if isActive = true ∨ g.jiggleActive = true then 0 else g.inkAccumulator + dtv
    let baseRate : ℚ := 3/10
    let boost := min 8 (1 + acc * 10)
    let alphaStep := min 1 (baseRate * boost * dtv)
    let ink1 := reinkOp alphaStep g.ink
    let hard := if 2 < acc then true else false
    let ink2 := if 2 < acc then hardFillOp ink1 else ink1
    ({ g with inkAccumulator := acc, ink := ink2 }, some alphaStep, hard)
  else (g, none, false)

/-- JS `if (jiggleActive && !hasInteracted) inkAccumulator = 0` (main.js:817-820). -/
def jiggleAccPhase (g : Game) : Game :=
  if g.jiggleActive = true ∧ g.hasInteracted = false then { g with inkAccumulator := 0 } else g

/-- The brush radius of main.js:824-829: `base = size * 0.45`,
`capRadius = minSide * 0.12`, `sNorm = min(1, speed / (maxSpeed || 400))`,
`ease = sqrt(sNorm)`, `radius = max(18, base + ease * (capRadius - base))`. -/
def brushRadius (env : MathEnv) (size maxSpeed minSide speed : ℚ) : ℚ :=
  max 18 (size * (45/100)
    + env.sqrt (min 1 (speed / (if maxSpeed = 0 then 400 else maxSpeed)))
      * (minSide * (12/100) - size * (45/100)))

/-- The speed-based erase brush (main.js:822-841). -/
def erasePhase (env : MathEnv) (speed : ℚ) (isActive : Bool) (g : Game) :
    Game × Option (ℚ × ℚ × ℚ) :=
  if g.hasInteracted = true ∧ isActive = true ∧ g.isRevealed = false then
    let radius := brushRadius env g.player.size g.player.maxSpeed (min g.sz.w g.sz.h) speed
    ({ g with ink := applyBrush env g.sz.dpr g.player.pos.x g.player.pos.y radius g.ink },
     some (g.player.pos.x, g.player.pos.y, radius))
  else (g, none)

/-- The jiggle-time erase brush (main.js:843-858). -/
def jiggleErasePhase (env : MathEnv) (g : Game) : Game × Option (ℚ × ℚ × ℚ) :=
  if g.jiggleActive = true ∧ g.hasInteracted = false ∧ g.isRevealed = false then
    let base := g.player.size * (45/100)
    let radius := max 18 base
    ({ g with ink := applyBrush env g.sz.dpr g.player.pos.x g.player.pos.y radius g.ink },
     some (g.player.pos.x, g.player.pos.y, radius))
  else (g, none)

/-- One iteration of `loop(now)` (main.js:580-874), with `wall` modelling
`Date.now() / 1000`.  Phases run in exact source order; the redirect aborts
the remainder of the frame as the `return` at main.js:693 does. -/
def loopStep (env : MathEnv) (now wall : ℚ) (inp : Input) (g : Game) : Game × FrameLog :=
  let dtv := dtOf now g.last
  let fc := g.frameCount + 1
  let e := epiloguePhase dtv g
  if e.2.2 = true then
    ({ e.1 with frameCount := fc, last := now, redirected := true },
     ⟨e.2.1, none, false, none, none⟩)
  else
    let p1 := e.1.player.update env dtv inp (!e.1.isRevealed) e.1.sz
    let g2 := jigglePhase env dtv wall { e.1 with player := p1 }
    let speed := env.hypot g2.player.vel.x g2.player.vel.y
    let isActive := inp.isActive
    let g3 := interactPhase isActive g2
    let g4 := hintPhase dtv speed isActive g3
    let g5 := revealPhase fc isActive g4
    let r := reinkPhase dtv isActive g5
    let g6 := jiggleAccPhase r.1
    let m := erasePhase env speed isActive g6
    let jj := jiggleErasePhase env m.1
    ({ jj.1 with frameCount := fc, last := now }, ⟨e.2.1, r.2.1, r.2.2, m.2, jj.2⟩)

/-- Run a list of frames `(now, wall, input)` through `loopStep`. -/
def runFrames (env : MathEnv) (fs : List (ℚ × ℚ × Input)) (g : Game) : Game :=
  match fs with
  | [] => g
  | f :: rest => runFrames env rest (loopStep env f.1 f.2.1 f.2.2 g).1

/-! ## Concrete fixtures

A concrete environment and states used by witnesses and counterexamples.
`envAx.hypot` is the max-abs norm, which agrees with the Euclidean
`Math.hypot` whenever one argument is 0 (the only points where the concrete
runs below evaluate it); `cos`/`sin` are evaluated only at 0. -/

/-- Concrete math environment for witnesses / counterexamples. -/
def envAx : MathEnv := ⟨fun _ => 7/8, fun a b => max |a| |b|, fun q => q, fun _ => 1, fun _ => 0⟩

/-- No keys held, no pointer. -/
def inpNone : Input := ⟨[], false, ⟨0, 0⟩⟩

/-- Space held: counts as user input but contributes no axis direction. -/
def inpSpace : Input := ⟨["Space"], false, ⟨0, 0⟩⟩

/-- Left and right held simultaneously. -/
def inpLR : Input := ⟨["ArrowLeft", "ArrowRight"], false, ⟨0, 0⟩⟩

/-- An 800×800 viewport at pixel ratio 1. -/
def szTest : Size := ⟨800, 800, 1⟩

/-- A player at the center of `szTest`, at rest, with the source constants. -/
def pTest : Player := ⟨⟨400, 400⟩, ⟨0, 0⟩, 42, 1000, 500, 5/2⟩

/-- Pre-interaction state with the jiggle hint active (reached after 5s of
idling from startup) and a pristine fully covered ink layer. -/
def gJiggle : Game :=
  { sz := szTest, player := pTest, hasInteracted := false, inkAccumulator := 0,
    isRevealed := false, revealProgress := 0, textYOffset := 0, playerOpacity := 1,
    fadeDelay := 0, frameCount := 0, redirectTimer := 0, idleTime := 0,
    jiggleActive := true, postJigglePause := 0, jiggleCycleCount := 0,
    ink := Ink.full 800 800, last := 0, redirected := false }

/-- Post-interaction idle state (no jiggle), for the re-ink witness. -/
def gIdle : Game :=
  { sz := szTest, player := pTest, hasInteracted := true, inkAccumulator := 0,
    isRevealed := false, revealProgress := 0, textYOffset := 0, playerOpacity := 1,
    fadeDelay := 0, frameCount := 0, redirectTimer := 0, idleTime := 0,
    jiggleActive := false, postJigglePause := 0, jiggleCycleCount := 0,
    ink := Ink.full 800 800, last := 0, redirected := false }

/-- Post-interaction active state in a small 100×100 viewport, where the
viewport-relative brush cap (12) is below the base radius (18.9). -/
def gSmall : Game :=
  { sz := ⟨100, 100, 1⟩, player := ⟨⟨50, 50⟩, ⟨0, 0⟩, 42, 1000, 500, 5/2⟩,
    hasInteracted := true, inkAccumulator := 0,
    isRevealed := false, revealProgress := 0, textYOffset := 0, playerOpacity := 1,
    fadeDelay := 0, frameCount := 0, redirectTimer := 0, idleTime := 0,
    jiggleActive := false, postJigglePause := 0, jiggleCycleCount := 0,
    ink := Ink.full 100 100, last := 0, redirected := false }

/-- Fully-revealed state, for the monotonicity witness. -/
def gRevealed : Game :=
  { sz := szTest, player := pTest, hasInteracted := true, inkAccumulator := 0,
    isRevealed := true, revealProgress := 0, textYOffset := 0, playerOpacity := 1,
    fadeDelay := 0, frameCount := 0, redirectTimer := 0, idleTime := 0,
    jiggleActive := false, postJigglePause := 0, jiggleCycleCount := 0,
    ink := Ink.full 800 800, last := 0, redirected := false }

/-! ## Helper lemmas -/

theorem clamp_lower (v lo hi : ℚ) : lo ≤ clamp v lo hi := le_max_left _ _

theorem clamp_upper (v lo hi : ℚ) (h : lo ≤ hi) : clamp v lo hi ≤ hi :=
  max_le h (min_le_left _ _)

theorem Player.modeStep_size (p : Player) (env : MathEnv) (dt : ℚ) (inp : Input)
    (allow : Bool) : (p.modeStep env dt inp allow).size = p.size := by
  unfold Player.modeStep
  cases h : inp.getPointerTarget <;> dsimp only <;> split_ifs <;> rfl

theorem Player.modeStep_maxSpeed (p : Player) (env : MathEnv) (dt : ℚ) (inp : Input)
    (allow : Bool) : (p.modeStep env dt inp allow).maxSpeed = p.maxSpeed := by
  unfold Player.modeStep
  cases h : inp.getPointerTarget <;> dsimp only <;> split_ifs <;> rfl

theorem Player.update_size (p : Player) (env : MathEnv) (dt : ℚ) (inp : Input)
    (allow : Bool) (sz : Size) : (p.update env dt inp allow sz).size = p.size := by
  unfold Player.update
  simp only [Player.modeStep_size]

theorem Player.update_maxSpeed (p : Player) (env : MathEnv) (dt : ℚ) (inp : Input)
    (allow : Bool) (sz : Size) : (p.update env dt inp allow sz).maxSpeed = p.maxSpeed := by
  unfold Player.update
  simp only [Player.modeStep_maxSpeed]

theorem epiloguePhase_not_revealed (dtv : ℚ) (g : Game) (h : g.isRevealed = false) :
    epiloguePhase dtv g = (g, false, false) := by
  unfold epiloguePhase
  simp [h]

theorem epiloguePhase_isRevealed (dtv : ℚ) (g : Game) :
    (epiloguePhase dtv g).1.isRevealed = g.isRevealed := by
  unfold epiloguePhase
  first
  | (dsimp only; split_ifs <;> rfl)
  | (split_ifs <;> rfl)

theorem jigglePhase_isRevealed (env : MathEnv) (dtv wall : ℚ) (g : Game) :
    (jigglePhase env dtv wall g).isRevealed = g.isRevealed := by
  unfold jigglePhase
  first
  | (dsimp only; split_ifs <;> rfl)
  | (split_ifs <;> rfl)

theorem jigglePhase_hasInteracted (env : MathEnv) (dtv wall : ℚ) (g : Game) :
    (jigglePhase env dtv wall g).hasInteracted = g.hasInteracted := by
  unfold jigglePhase
  first
  | (dsimp only; split_ifs <;> rfl)
  | (split_ifs <;> rfl)

theorem jigglePhase_noop (env : MathEnv) (dtv wall : ℚ) (g : Game)
    (h : g.jiggleActive = false ∨ g.hasInteracted = true) :
    jigglePhase env dtv wall g = g := by
  unfold jigglePhase
  rcases h with h | h <;> simp [h]

theorem interactPhase_isRevealed (isActive : Bool) (g : Game) :
    (interactPhase isActive g).isRevealed = g.isRevealed := by
  unfold interactPhase
  first
  | (dsimp only; split_ifs <;> rfl)
  | (split_ifs <;> rfl)

theorem interactPhase_noop (isActive : Bool) (g : Game)
    (h : isActive = false ∨ g.hasInteracted = true) :
    interactPhase isActive g = g := by
  unfold interactPhase
  rcases h with h | h <;> simp [h]

theorem interactPhase_hasInteracted_inactive (g : Game) :
    (interactPhase false g).hasInteracted = g.hasInteracted := by
  rw [interactPhase_noop false g (Or.inl rfl)]

theorem hintPhase_isRevealed (dtv speed : ℚ) (isActive : Bool) (g : Game) :
    (hintPhase dtv speed isActive g).isRevealed = g.isRevealed := by
  unfold hintPhase
  first
  | (dsimp only; split_ifs <;> rfl)
  | (split_ifs <;> rfl)

theorem hintPhase_hasInteracted (dtv speed : ℚ) (isActive : Bool) (g : Game) :
    (hintPhase dtv speed isActive g).hasInteracted = g.hasInteracted := by
  unfold hintPhase
  first
  | (dsimp only; split_ifs <;> rfl)
  | (split_ifs <;> rfl)

theorem hintPhase_noop_interacted (dtv speed : ℚ) (g : Game)
    (h : g.hasInteracted = true) :
    hintPhase dtv speed false g = g := by
  unfold hintPhase
  simp [h]

theorem revealPhase_isRevealed_true (fc : ℕ) (isActive : Bool) (g : Game)
    (h : g.isRevealed = true) : revealPhase fc isActive g = g := by
  unfold revealPhase
  simp [h]

theorem revealPhase_inactive (fc : ℕ) (g : Game) : revealPhase fc false g = g := by
  unfold revealPhase
  simp

theorem revealPhase_hasInteracted (fc : ℕ) (isActive : Bool) (g : Game) :
    (revealPhase fc isActive g).hasInteracted = g.hasInteracted := by
  unfold revealPhase
  first
  | (dsimp only; split_ifs <;> rfl)
  | (split_ifs <;> rfl)

theorem reinkPhase_isRevealed (dtv : ℚ) (isActive : Bool) (g : Game) :
    (reinkPhase dtv isActive g).1.isRevealed = g.isRevealed := by
  unfold reinkPhase
  first
  | (dsimp only; split_ifs <;> rfl)
  | (split_ifs <;> rfl)

theorem reinkPhase_hasInteracted (dtv : ℚ) (isActive : Bool) (g : Game) :
    (reinkPhase dtv isActive g).1.hasInteracted = g.hasInteracted := by
  unfold reinkPhase
  first
  | (dsimp only; split_ifs <;> rfl)
  | (split_ifs <;> rfl)

theorem reinkPhase_jiggleActive (dtv : ℚ) (isActive : Bool) (g : Game) :
    (reinkPhase dtv isActive g).1.jiggleActive = g.jiggleActive := by
  unfold reinkPhase
  first
  | (dsimp only; split_ifs <;> rfl)
  | (split_ifs <;> rfl)

theorem jiggleAccPhase_isRevealed (g : Game) :
    (jiggleAccPhase g).isRevealed = g.isRevealed := by
  unfold jiggleAccPhase
  first
  | (dsimp only; split_ifs <;> rfl)
  | (split_ifs <;> rfl)

theorem jiggleAccPhase_hasInteracted (g : Game) :
    (jiggleAccPhase g).hasInteracted = g.hasInteracted := by
  unfold jiggleAccPhase
  first
  | (dsimp only; split_ifs <;> rfl)
  | (split_ifs <;> rfl)

theorem jiggleAccPhase_jiggleActive (g : Game) :
    (jiggleAccPhase g).jiggleActive = g.jiggleActive := by
  unfold jiggleAccPhase
  first
  | (dsimp only; split_ifs <;> rfl)
  | (split_ifs <;> rfl)

theorem erasePhase_isRevealed (env : MathEnv) (speed : ℚ) (isActive : Bool) (g : Game) :
    (erasePhase env speed isActive g).1.isRevealed = g.isRevealed := by
  unfold erasePhase
  first
  | (dsimp only; split_ifs <;> rfl)
  | (split_ifs <;> rfl)

theorem erasePhase_jiggleActive (env : MathEnv) (speed : ℚ) (isActive : Bool) (g : Game) :
    (erasePhase env speed isActive g).1.jiggleActive = g.jiggleActive := by
  unfold erasePhase
  first
  | (dsimp only; split_ifs <;> rfl)
  | (split_ifs <;> rfl)

theorem erasePhase_hasInteracted (env : MathEnv) (speed : ℚ) (isActive : Bool) (g : Game) :
    (erasePhase env speed isActive g).1.hasInteracted = g.hasInteracted := by
  unfold erasePhase
  first
  | (dsimp only; split_ifs <;> rfl)
  | (split_ifs <;> rfl)

theorem erasePhase_no_interaction (env : MathEnv) (speed : ℚ) (isActive : Bool) (g : Game)
    (h : g.hasInteracted = false) : erasePhase env speed isActive g = (g, none) := by
  unfold erasePhase
  simp [h]

theorem jiggleErasePhase_isRevealed (env : MathEnv) (g : Game) :
    (jiggleErasePhase env g).1.isRevealed = g.isRevealed := by
  unfold jiggleErasePhase
  first
  | (dsimp only; split_ifs <;> rfl)
  | (split_ifs <;> rfl)

theorem jiggleErasePhase_some_active (env : MathEnv) (g : Game)
    (h : (jiggleErasePhase env g).2 ≠ none) : (jiggleErasePhase env g).1.jiggleActive = true := by
  unfold jiggleErasePhase at h ⊢
  split_ifs at h ⊢ with hc
  · exact hc.1
  · simp at h

theorem revealPhase_isRevealed_mono (fc : ℕ) (isActive : Bool) (g : Game)
    (h : g.isRevealed = true) : (revealPhase fc isActive g).isRevealed = true := by
  rw [revealPhase_isRevealed_true fc isActive g h]
  exact h

/-- A single frame never clears the fully-revealed flag. -/
theorem loopStep_isRevealed_mono (env : MathEnv) (now wall : ℚ) (inp : Input) (g : Game)
    (h : g.isRevealed = true) : (loopStep env now wall inp g).1.isRevealed = true := by
  unfold loopStep
  dsimp only
  split_ifs
  · rw [epiloguePhase_isRevealed]
    exact h
  · rw [jiggleErasePhase_isRevealed, erasePhase_isRevealed, jiggleAccPhase_isRevealed,
      reinkPhase_isRevealed]
    apply revealPhase_isRevealed_mono
    rw [hintPhase_isRevealed, interactPhase_isRevealed, jigglePhase_isRevealed]
    dsimp only
    rw [epiloguePhase_isRevealed]
    exact h

theorem epiloguePhase_player (dtv : ℚ) (g : Game) :
    (epiloguePhase dtv g).1.player = g.player := by
  unfold epiloguePhase
  first
  | (dsimp only; split_ifs <;> rfl)
  | (split_ifs <;> rfl)

theorem epiloguePhase_sz (dtv : ℚ) (g : Game) :
    (epiloguePhase dtv g).1.sz = g.sz := by
  unfold epiloguePhase
  first
  | (dsimp only; split_ifs <;> rfl)
  | (split_ifs <;> rfl)

theorem jigglePhase_sz (env : MathEnv) (dtv wall : ℚ) (g : Game) :
    (jigglePhase env dtv wall g).sz = g.sz := by
  unfold jigglePhase
  first
  | (dsimp only; split_ifs <;> rfl)
  | (split_ifs <;> rfl)

theorem interactPhase_player (isActive : Bool) (g : Game) :
    (interactPhase isActive g).player = g.player := by
  unfold interactPhase
  first
  | (dsimp only; split_ifs <;> rfl)
  | (split_ifs <;> rfl)

theorem interactPhase_sz (isActive : Bool) (g : Game) :
    (interactPhase isActive g).sz = g.sz := by
  unfold interactPhase
  first
  | (dsimp only; split_ifs <;> rfl)
  | (split_ifs <;> rfl)

theorem hintPhase_player (dtv speed : ℚ) (isActive : Bool) (g : Game) :
    (hintPhase dtv speed isActive g).player = g.player := by
  unfold hintPhase
  first
  | (dsimp only; split_ifs <;> rfl)
  | (split_ifs <;> rfl)

theorem hintPhase_sz (dtv speed : ℚ) (isActive : Bool) (g : Game) :
    (hintPhase dtv speed isActive g).sz = g.sz := by
  unfold hintPhase
  first
  | (dsimp only; split_ifs <;> rfl)
  | (split_ifs <;> rfl)

theorem revealPhase_player (fc : ℕ) (isActive : Bool) (g : Game) :
    (revealPhase fc isActive g).player = g.player := by
  unfold revealPhase
  first
  | (dsimp only; split_ifs <;> rfl)
  | (split_ifs <;> rfl)

theorem revealPhase_sz (fc : ℕ) (isActive : Bool) (g : Game) :
    (revealPhase fc isActive g).sz = g.sz := by
  unfold revealPhase
  first
  | (dsimp only; split_ifs <;> rfl)
  | (split_ifs <;> rfl)

theorem reinkPhase_player (dtv : ℚ) (isActive : Bool) (g : Game) :
    (reinkPhase dtv isActive g).1.player = g.player := by
  unfold reinkPhase
  first
  | (dsimp only; split_ifs <;> rfl)
  | (split_ifs <;> rfl)

theorem reinkPhase_sz (dtv : ℚ) (isActive : Bool) (g : Game) :
    (reinkPhase dtv isActive g).1.sz = g.sz := by
  unfold reinkPhase
  first
  | (dsimp only; split_ifs <;> rfl)
  | (split_ifs <;> rfl)

theorem jiggleAccPhase_player (g : Game) :
    (jiggleAccPhase g).player = g.player := by
  unfold jiggleAccPhase
  first
  | (dsimp only; split_ifs <;> rfl)
  | (split_ifs <;> rfl)

theorem jiggleAccPhase_sz (g : Game) :
    (jiggleAccPhase g).sz = g.sz := by
  unfold jiggleAccPhase
  first
  | (dsimp only; split_ifs <;> rfl)
  | (split_ifs <;> rfl)

theorem erasePhase_player (env : MathEnv) (speed : ℚ) (isActive : Bool) (g : Game) :
    (erasePhase env speed isActive g).1.player = g.player := by
  unfold erasePhase
  first
  | (dsimp only; split_ifs <;> rfl)
  | (split_ifs <;> rfl)

theorem erasePhase_sz (env : MathEnv) (speed : ℚ) (isActive : Bool) (g : Game) :
    (erasePhase env speed isActive g).1.sz = g.sz := by
  unfold erasePhase
  first
  | (dsimp only; split_ifs <;> rfl)
  | (split_ifs <;> rfl)

theorem jiggleErasePhase_player (env : MathEnv) (g : Game) :
    (jiggleErasePhase env g).1.player = g.player := by
  unfold jiggleErasePhase
  first
  | (dsimp only; split_ifs <;> rfl)
  | (split_ifs <;> rfl)

theorem erasePhase_snd_none (env : MathEnv) (speed : ℚ) (isActive : Bool) (g : Game)
    (h : g.hasInteracted = false) : (erasePhase env speed isActive g).2 = none := by
  rw [erasePhase_no_interaction env speed isActive g h]

/-- If the speed-based erase fired, the recorded brush is centered on the
player and its radius is the `brushRadius` formula. -/
theorem erasePhase_spec (env : MathEnv) (speed : ℚ) (isActive : Bool) (g : Game)
    (x y rad : ℚ) (h : (erasePhase env speed isActive g).2 = some (x, y, rad)) :
    x = g.player.pos.x ∧ y = g.player.pos.y ∧
    rad = brushRadius env g.player.size g.player.maxSpeed (min g.sz.w g.sz.h) speed := by
  unfold erasePhase at h
  split_ifs at h
  · simp only [Prod.mk.injEq, Option.some.injEq] at h
    exact ⟨h.1.symm, h.2.1.symm, h.2.2.symm⟩

/-- Field `hasInteracted` is unchanged by the phases between the interaction latch
(run with inactive input) and the erase step. -/
theorem phases_hasInteracted (env : MathEnv) (dtv wall speed : ℚ) (fc : ℕ) (g : Game) :
    (jiggleAccPhase (reinkPhase dtv false (revealPhase fc false
        (hintPhase dtv speed false (interactPhase false
          (jigglePhase env dtv wall g))))).1).hasInteracted = g.hasInteracted := by
  rw [jiggleAccPhase_hasInteracted, reinkPhase_hasInteracted, revealPhase_hasInteracted,
    hintPhase_hasInteracted, interactPhase_hasInteracted_inactive, jigglePhase_hasInteracted]

/-! ## Claims -/

/-- Claim C9 (confirmed): a pointer cancel produces exactly the sampler state of
an explicit release — the two listeners run the same `end()` (main.js:83-84) —
and afterwards `pointerActive` is false and `getPointerTarget()` returns
`none`, with no residual active state. -/
theorem pointer_cancel_eq_release (s : Input) :
    s.onPointerCancel = s.onPointerUp ∧
    s.onPointerCancel.pointerActive = false ∧
    s.onPointerCancel.getPointerTarget = none := by
  refine ⟨rfl, rfl, ?_⟩
  unfold Input.onPointerCancel Input.onPointerEnd Input.getPointerTarget
  simp

/-- Claim C3 (confirmed): after every kinematics update the player position on
each axis lies in `[size/2, viewportDim - size/2]`, provided the viewport is
at least the player size on that axis (main.js:154-156). -/
theorem player_update_in_bounds (env : MathEnv) (dt : ℚ) (inp : Input) (allow : Bool)
    (sz : Size) (p : Player) (hw : p.size ≤ sz.w) (hh : p.size ≤ sz.h) :
    p.size / 2 ≤ (p.update env dt inp allow sz).pos.x ∧
    (p.update env dt inp allow sz).pos.x ≤ sz.w - p.size / 2 ∧
    p.size / 2 ≤ (p.update env dt inp allow sz).pos.y ∧
    (p.update env dt inp allow sz).pos.y ≤ sz.h - p.size / 2 := by
  have h2w : p.size / 2 ≤ sz.w - p.size / 2 := by linarith
  have h2h : p.size / 2 ≤ sz.h - p.size / 2 := by linarith
  unfold Player.update
  dsimp only
  rw [Player.modeStep_size]
  exact ⟨clamp_lower _ _ _, clamp_upper _ _ _ h2w, clamp_lower _ _ _, clamp_upper _ _ _ h2h⟩

theorem player_update_in_bounds_witness :
    (Player.init szTest).size ≤ szTest.w ∧ (Player.init szTest).size ≤ szTest.h ∧
    ((Player.init szTest).size / 2 ≤
        ((Player.init szTest).update envAx 0 inpNone true szTest).pos.x ∧
      ((Player.init szTest).update envAx 0 inpNone true szTest).pos.x ≤
        szTest.w - (Player.init szTest).size / 2 ∧
      (Player.init szTest).size / 2 ≤
        ((Player.init szTest).update envAx 0 inpNone true szTest).pos.y ∧
      ((Player.init szTest).update envAx 0 inpNone true szTest).pos.y ≤
        szTest.h - (Player.init szTest).size / 2) :=
  ⟨by decide, by decide,
    player_update_in_bounds envAx 0 inpNone true szTest (Player.init szTest)
      (by decide) (by decide)⟩

/-- Claim C5 (confirmed): the fully-revealed flag is one-way — once set it stays
set under any further sequence of frames (the only assignment is
`isRevealed = true` at main.js:782). -/
theorem revealed_flag_monotone (env : MathEnv) (fs : List (ℚ × ℚ × Input)) (g : Game)
    (h : g.isRevealed = true) : (runFrames env fs g).isRevealed = true := by
  induction fs generalizing g with
  | nil => exact h
  | cons f rest ih =>
    exact ih _ (loopStep_isRevealed_mono env f.1 f.2.1 f.2.2 g h)

theorem revealed_flag_monotone_witness :
    gRevealed.isRevealed = true ∧
    (runFrames envAx [(50, 0, inpNone), (100, 0, inpSpace)] gRevealed).isRevealed = true :=
  ⟨rfl, revealed_flag_monotone envAx [(50, 0, inpNone), (100, 0, inpSpace)] gRevealed rfl⟩

/-- Claim C2 counterexample: the claim "ink buffer dimensions equal viewport
times the device pixel ratio" fails at `devicePixelRatio = 2` on a 100×100
viewport: `resize()` caps the ratio at 1.5 (main.js:31), giving a 150-pixel
buffer where the claim predicts 200. -/
theorem resize_dims_cex :
    (onResizeEvent 100 100 2 pTest).2.1.width = 150 ∧
    ⌊(100 : ℚ) * 2⌋ = 200 ∧
    (onResizeEvent 100 100 2 pTest).2.1.width ≠ ⌊(100 : ℚ) * 2⌋ := by
  refine ⟨?_, ?_, ?_⟩ <;>
    norm_num [onResizeEvent, resizeCore, Ink.full, pTest, min_def]

/-- Claim C2 (amended): after a resize event the ink buffer dimensions equal
`floor(floor(viewport) * min(1.5, dpr || 1))` — the code caps the device
pixel ratio at 1.5 — the buffer is reset to full coverage, and the player
position is re-clamped into `[size/2, newDim - size/2]` on each axis
(assuming the new viewport is at least the player size). -/
theorem resize_resets_state (iw ih dpr : ℚ) (p : Player)
    (hw : p.size ≤ ((⌊iw⌋ : ℤ) : ℚ)) (hh : p.size ≤ ((⌊ih⌋ : ℤ) : ℚ)) :
    (onResizeEvent iw ih dpr p).1.w = ((⌊iw⌋ : ℤ) : ℚ) ∧
    (onResizeEvent iw ih dpr p).1.h = ((⌊ih⌋ : ℤ) : ℚ) ∧
    (onResizeEvent iw ih dpr p).2.1.width =
      ⌊((⌊iw⌋ : ℤ) : ℚ) * min (3/2) (if dpr = 0 then 1 else dpr)⌋ ∧
    (onResizeEvent iw ih dpr p).2.1.height =
      ⌊((⌊ih⌋ : ℤ) : ℚ) * min (3/2) (if dpr = 0 then 1 else dpr)⌋ ∧
    (∀ i j : ℤ, (onResizeEvent iw ih dpr p).2.1.alpha i j = 1) ∧
    (onResizeEvent iw ih dpr p).2.2.pos.x =
      clamp p.pos.x (p.size / 2) ((onResizeEvent iw ih dpr p).1.w - p.size / 2) ∧
    (onResizeEvent iw ih dpr p).2.2.pos.y =
      clamp p.pos.y (p.size / 2) ((onResizeEvent iw ih dpr p).1.h - p.size / 2) ∧
    p.size / 2 ≤ (onResizeEvent iw ih dpr p).2.2.pos.x ∧
    (onResizeEvent iw ih dpr p).2.2.pos.x ≤ (onResizeEvent iw ih dpr p).1.w - p.size / 2 ∧
    p.size / 2 ≤ (onResizeEvent iw ih dpr p).2.2.pos.y ∧
    (onResizeEvent iw ih dpr p).2.2.pos.y ≤ (onResizeEvent iw ih dpr p).1.h - p.size / 2 := by
  have h2w : p.size / 2 ≤ ((⌊iw⌋ : ℤ) : ℚ) - p.size / 2 := by linarith
  have h2h : p.size / 2 ≤ ((⌊ih⌋ : ℤ) : ℚ) - p.size / 2 := by linarith
  unfold onResizeEvent resizeCore Ink.full
  dsimp only
  exact ⟨rfl, rfl, rfl, rfl, fun i j => rfl, rfl, rfl,
    clamp_lower _ _ _, clamp_upper _ _ _ h2w, clamp_lower _ _ _, clamp_upper _ _ _ h2h⟩

theorem resize_resets_state_witness :
    pTest.size ≤ ((⌊(800 : ℚ)⌋ : ℤ) : ℚ) ∧ pTest.size ≤ ((⌊(600 : ℚ)⌋ : ℤ) : ℚ) ∧
    ((onResizeEvent 800 600 1 pTest).1.w = ((⌊(800 : ℚ)⌋ : ℤ) : ℚ) ∧
     (onResizeEvent 800 600 1 pTest).1.h = ((⌊(600 : ℚ)⌋ : ℤ) : ℚ) ∧
     (onResizeEvent 800 600 1 pTest).2.1.width =
       ⌊((⌊(800 : ℚ)⌋ : ℤ) : ℚ) * min (3/2) (if (1 : ℚ) = 0 then 1 else 1)⌋ ∧
     (onResizeEvent 800 600 1 pTest).2.1.height =
       ⌊((⌊(600 : ℚ)⌋ : ℤ) : ℚ) * min (3/2) (if (1 : ℚ) = 0 then 1 else 1)⌋ ∧
     (∀ i j : ℤ, (onResizeEvent 800 600 1 pTest).2.1.alpha i j = 1) ∧
     (onResizeEvent 800 600 1 pTest).2.2.pos.x =
       clamp pTest.pos.x (pTest.size / 2) ((onResizeEvent 800 600 1 pTest).1.w - pTest.size / 2) ∧
     (onResizeEvent 800 600 1 pTest).2.2.pos.y =
       clamp pTest.pos.y (pTest.size / 2) ((onResizeEvent 800 600 1 pTest).1.h - pTest.size / 2) ∧
     pTest.size / 2 ≤ (onResizeEvent 800 600 1 pTest).2.2.pos.x ∧
     (onResizeEvent 800 600 1 pTest).2.2.pos.x ≤
       (onResizeEvent 800 600 1 pTest).1.w - pTest.size / 2 ∧
     pTest.size / 2 ≤ (onResizeEvent 800 600 1 pTest).2.2.pos.y ∧
     (onResizeEvent 800 600 1 pTest).2.2.pos.y ≤
       (onResizeEvent 800 600 1 pTest).1.h - pTest.size / 2) :=
  ⟨by norm_num [pTest], by norm_num [pTest],
    resize_resets_state 800 600 1 pTest (by norm_num [pTest]) (by norm_num [pTest])⟩

/-- Claim C8 (confirmed): `getAxis()` returns the zero vector or a unit vector
(stated on squared length, assuming `hypot` computes the Euclidean norm at
the raw axis point), and opposing held keys cancel: both a left and a right
key held gives x-component 0, both an up and a down key gives y-component 0
(main.js:86-96). -/
theorem getAxis_unit_or_cancel (env : MathEnv) (inp : Input)
    (h0 : 0 ≤ env.hypot inp.rawAxis.1 inp.rawAxis.2)
    (h2 : env.hypot inp.rawAxis.1 inp.rawAxis.2 ^ 2 = inp.rawAxis.1 ^ 2 + inp.rawAxis.2 ^ 2) :
    ((inp.getAxis env).x ^ 2 + (inp.getAxis env).y ^ 2 = 0 ∨
     (inp.getAxis env).x ^ 2 + (inp.getAxis env).y ^ 2 = 1) ∧
    ((inp.keys.contains "ArrowLeft" || inp.keys.contains "KeyA") = true →
     (inp.keys.contains "ArrowRight" || inp.keys.contains "KeyD") = true →
     (inp.getAxis env).x = 0) ∧
    ((inp.keys.contains "ArrowUp" || inp.keys.contains "KeyW") = true →
     (inp.keys.contains "ArrowDown" || inp.keys.contains "KeyS") = true →
     (inp.getAxis env).y = 0) := by
  have hx0 : (inp.keys.contains "ArrowLeft" || inp.keys.contains "KeyA") = true →
      (inp.keys.contains "ArrowRight" || inp.keys.contains "KeyD") = true →
      inp.rawAxis.1 = 0 := by
    intro hL hR
    unfold Input.rawAxis
    dsimp only
    rw [hL, hR]
    norm_num
  have hy0 : (inp.keys.contains "ArrowUp" || inp.keys.contains "KeyW") = true →
      (inp.keys.contains "ArrowDown" || inp.keys.contains "KeyS") = true →
      inp.rawAxis.2 = 0 := by
    intro hU hD
    unfold Input.rawAxis
    dsimp only
    rw [hU, hD]
    norm_num
  unfold Input.getAxis Vec2.normalize Vec2.len
  dsimp only
  by_cases hl : 0 < env.hypot inp.rawAxis.1 inp.rawAxis.2
  · rw [if_pos hl, if_pos hl]
    dsimp only
    have hne : env.hypot inp.rawAxis.1 inp.rawAxis.2 ≠ 0 := ne_of_gt hl
    refine ⟨Or.inr ?_, ?_, ?_⟩
    · field_simp
      linarith [h2]
    · intro hL hR
      rw [hx0 hL hR, zero_div]
    · intro hU hD
      rw [hy0 hU hD, zero_div]
  · rw [if_neg hl]
    dsimp only
    have hle : env.hypot inp.rawAxis.1 inp.rawAxis.2 = 0 :=
      le_antisymm (not_lt.1 hl) h0
    have hsum : inp.rawAxis.1 ^ 2 + inp.rawAxis.2 ^ 2 = 0 := by
      rw [← h2, hle]
      norm_num
    exact ⟨Or.inl hsum, fun hL hR => hx0 hL hR, fun hU hD => hy0 hU hD⟩

theorem getAxis_unit_or_cancel_witness :
    0 ≤ envAx.hypot inpLR.rawAxis.1 inpLR.rawAxis.2 ∧
    envAx.hypot inpLR.rawAxis.1 inpLR.rawAxis.2 ^ 2 =
      inpLR.rawAxis.1 ^ 2 + inpLR.rawAxis.2 ^ 2 ∧
    (((inpLR.getAxis envAx).x ^ 2 + (inpLR.getAxis envAx).y ^ 2 = 0 ∨
      (inpLR.getAxis envAx).x ^ 2 + (inpLR.getAxis envAx).y ^ 2 = 1) ∧
     ((inpLR.keys.contains "ArrowLeft" || inpLR.keys.contains "KeyA") = true →
      (inpLR.keys.contains "ArrowRight" || inpLR.keys.contains "KeyD") = true →
      (inpLR.getAxis envAx).x = 0) ∧
     ((inpLR.keys.contains "ArrowUp" || inpLR.keys.contains "KeyW") = true →
      (inpLR.keys.contains "ArrowDown" || inpLR.keys.contains "KeyS") = true →
      (inpLR.getAxis envAx).y = 0)) :=
  ⟨by norm_num [envAx, inpLR, Input.rawAxis], by norm_num [envAx, inpLR, Input.rawAxis],
    getAxis_unit_or_cancel envAx inpLR (by norm_num [envAx, inpLR, Input.rawAxis])
      (by norm_num [envAx, inpLR, Input.rawAxis])⟩

/-- Claim C10 (confirmed): the fully-revealed transition cannot fire before the
first genuine interaction: `calculateRevealPercentage` returns 0 whenever
`hasInteracted` is false (main.js:548), and on a frame that starts
un-interacted, un-revealed and receives no active input, the reveal check is
gated off (main.js:779) so the flag stays false — even if jiggle-hint erasure
has cleared the sampled region. -/
theorem reveal_requires_interaction (env : MathEnv) (now wall : ℚ) (inp : Input) (g : Game)
    (h1 : g.hasInteracted = false) (h2 : g.isRevealed = false) (h3 : inp.isActive = false) :
    calculateRevealPercentage g.sz g.hasInteracted g.ink = 0 ∧
    (∀ sz ink, calculateRevealPercentage sz false ink = 0) ∧
    (loopStep env now wall inp g).1.isRevealed = false := by
  refine ⟨?_, fun sz ink => rfl, ?_⟩
  · rw [h1]
    rfl
  · unfold loopStep
    dsimp only
    rw [epiloguePhase_not_revealed _ _ h2]
    dsimp only
    rw [if_neg (by simp)]
    dsimp only
    rw [jiggleErasePhase_isRevealed, erasePhase_isRevealed, jiggleAccPhase_isRevealed,
      reinkPhase_isRevealed, h3, revealPhase_inactive, hintPhase_isRevealed,
      interactPhase_isRevealed, jigglePhase_isRevealed]
    exact h2

theorem reveal_requires_interaction_witness :
    gJiggle.hasInteracted = false ∧ gJiggle.isRevealed = false ∧ inpNone.isActive = false ∧
    (calculateRevealPercentage gJiggle.sz gJiggle.hasInteracted gJiggle.ink = 0 ∧
     (∀ sz ink, calculateRevealPercentage sz false ink = 0) ∧
     (loopStep envAx 50 0 inpNone gJiggle).1.isRevealed = false) :=
  ⟨rfl, rfl, rfl, reveal_requires_interaction envAx 50 0 inpNone gJiggle rfl rfl rfl⟩

/-- Claim C6 (confirmed): on every re-ink frame (interacted, idle — no input
activity and no jiggle — and not revealed) the applied alpha-blend step is
`min(1, 0.3 * min(8, 1 + idleDuration * 10) * dt)` where `idleDuration` is
the idle accumulator including this frame's dt (main.js:788-801). -/
theorem reink_step_formula (env : MathEnv) (now wall : ℚ) (inp : Input) (g : Game)
    (h1 : g.hasInteracted = true) (h2 : g.isRevealed = false)
    (h3 : inp.isActive = false) (h4 : g.jiggleActive = false) :
    (loopStep env now wall inp g).2.reinkStep =
      some (min 1 (3/10 * min 8 (1 + (g.inkAccumulator + dtOf now g.last) * 10)
        * dtOf now g.last)) := by
  unfold loopStep
  dsimp only
  rw [epiloguePhase_not_revealed _ _ h2]
  dsimp only
  rw [if_neg (by simp)]
  dsimp only
  simp only [h3, revealPhase_inactive, interactPhase_noop, jigglePhase_noop,
    hintPhase_noop_interacted, h4, h1, h2, reinkPhase, or_false, false_or, or_true, true_or,
    if_true, if_false]
  simp

theorem reink_step_formula_witness :
    gIdle.hasInteracted = true ∧ gIdle.isRevealed = false ∧ inpNone.isActive = false ∧
    gIdle.jiggleActive = false ∧
    (loopStep envAx 50 0 inpNone gIdle).2.reinkStep =
      some (min 1 (3/10 * min 8 (1 + (gIdle.inkAccumulator + dtOf 50 gIdle.last) * 10)
        * dtOf 50 gIdle.last)) :=
  ⟨rfl, rfl, rfl, rfl, reink_step_formula envAx 50 0 inpNone gIdle rfl rfl rfl rfl⟩

/-- Claim C1 counterexample: the claim "no erase operation is applied to any
pixel of the ink buffer before `hasInteracted` becomes true" is false: on a
pre-interaction frame with the jiggle hint active and no user input, the
jiggle-erase brush (main.js:844-858) fires and erodes the ink — at the pixel
under the player the alpha drops from full coverage 1 to 0. -/
theorem jiggle_erases_before_interaction_cex :
    gJiggle.hasInteracted = false ∧ inpNone.isActive = false ∧
    (loopStep envAx 50 0 inpNone gJiggle).1.hasInteracted = false ∧
    (loopStep envAx 50 0 inpNone gJiggle).2.jiggleBrush = some (400, 400, 189/10) ∧
    (loopStep envAx 50 0 inpNone gJiggle).1.ink.alpha 400 400 = 0 ∧
    gJiggle.ink.alpha 400 400 = 1 := by
  refine ⟨rfl, rfl, ?_, ?_, ?_, rfl⟩ <;>
    norm_num [loopStep, dtOf, clamp, epiloguePhase, jigglePhase, interactPhase, hintPhase,
      revealPhase, reinkPhase, jiggleAccPhase, erasePhase, jiggleErasePhase, brushRadius,
      Player.update, Player.modeStep, Input.getPointerTarget, Input.getAxis, Input.rawAxis,
      Input.isActive, Vec2.len, Vec2.normalize, Vec2.add, Vec2.scale, applyBrush, reinkOp,
      hardFillOp, bleedOp, gradProfile, envAx, inpNone, gJiggle, pTest, szTest, Ink.full,
      min_def, max_def]

/-- Claim C1 (amended): before the first frame with genuine user input, the
speed-based erase brush (main.js:822-841) and the epilogue bleed
(main.js:597-602) are never applied; the only erase that can occur before
`hasInteracted` becomes true is the jiggle-hint brush, which fires exactly
when the jiggle animation is active (main.js:844-858) — so the ink buffer
*can* be eroded before the first interaction. -/
theorem preInteraction_no_main_erase (env : MathEnv) (now wall : ℚ) (inp : Input) (g : Game)
    (h1 : g.hasInteracted = false) (h2 : g.isRevealed = false) (h3 : inp.isActive = false) :
    (loopStep env now wall inp g).2.mainBrush = none ∧
    (loopStep env now wall inp g).2.bleedApplied = false ∧
    ((loopStep env now wall inp g).2.jiggleBrush ≠ none →
      (loopStep env now wall inp g).1.jiggleActive = true) := by
  unfold loopStep
  dsimp only
  rw [epiloguePhase_not_revealed _ _ h2]
  dsimp only
  rw [if_neg (by simp)]
  dsimp only
  rw [h3]
  refine ⟨?_, rfl, ?_⟩
  · refine erasePhase_snd_none env _ _ _ ?_
    rw [phases_hasInteracted]
    exact h1
  · intro hne
    exact jiggleErasePhase_some_active env _ hne

theorem preInteraction_no_main_erase_witness :
    gJiggle.hasInteracted = false ∧ gJiggle.isRevealed = false ∧ inpNone.isActive = false ∧
    ((loopStep envAx 50 0 inpNone gJiggle).2.mainBrush = none ∧
     (loopStep envAx 50 0 inpNone gJiggle).2.bleedApplied = false ∧
     ((loopStep envAx 50 0 inpNone gJiggle).2.jiggleBrush ≠ none →
       (loopStep envAx 50 0 inpNone gJiggle).1.jiggleActive = true)) :=
  ⟨rfl, rfl, rfl, preInteraction_no_main_erase envAx 50 0 inpNone gJiggle rfl rfl rfl⟩

/-- Claim C7 counterexample: the claim "the radius never exceeds
`max(18, capRadius)`" fails in a 100×100 viewport: on an active erase frame
at rest the brush radius is `max(18, 42*0.45) = 18.9`, while
`max(18, capRadius) = max(18, 12) = 18`. -/
theorem erase_radius_exceeds_cap_cex :
    (loopStep envAx 50 0 inpSpace gSmall).2.mainBrush = some (50, 50, 189/10) ∧
    max 18 (min gSmall.sz.w gSmall.sz.h * (12/100)) = 18 ∧
    ¬((189/10 : ℚ) ≤ max 18 (min gSmall.sz.w gSmall.sz.h * (12/100))) := by
  refine ⟨?_, ?_, ?_⟩
  · norm_num +decide [loopStep, dtOf, clamp, epiloguePhase, jigglePhase, interactPhase, hintPhase,
      revealPhase, reinkPhase, jiggleAccPhase, erasePhase, jiggleErasePhase, brushRadius,
      Player.update, Player.modeStep, Input.getPointerTarget, Input.getAxis, Input.rawAxis,
      Input.isActive, Vec2.len, Vec2.normalize, Vec2.add, Vec2.scale, applyBrush, reinkOp,
      hardFillOp, bleedOp, gradProfile, envAx, inpSpace, gSmall, Ink.full, min_def, max_def]
  · norm_num [gSmall, min_def, max_def]
  · norm_num [gSmall, min_def, max_def]

/-- Claim C7 (amended): on every active erase frame the brush radius equals
`max(18, base + ease * (capRadius - base))` with `base = 0.45 * playerSize`,
`capRadius = 0.12 * min(viewportW, viewportH)` and
`ease = sqrt(min(1, speed / maxSpeed))` (main.js:822-841); *when
`capRadius ≥ base`* (viewport min-dimension at least 157.5px) the radius is
monotonically non-decreasing in speed and never exceeds `max(18, capRadius)`
(for smaller viewports the radius can exceed that bound, see the
counterexample). -/
theorem erase_brush_radius (env : MathEnv) (now wall : ℚ) (inp : Input) (g : Game)
    (hM : 0 ≤ g.player.maxSpeed)
    (hsqMono : ∀ a b : ℚ, 0 ≤ a → a ≤ b → env.sqrt a ≤ env.sqrt b)
    (hsq01 : ∀ a : ℚ, 0 ≤ a → a ≤ 1 → 0 ≤ env.sqrt a ∧ env.sqrt a ≤ 1) :
    (∀ x y rad, (loopStep env now wall inp g).2.mainBrush = some (x, y, rad) →
      x = (loopStep env now wall inp g).1.player.pos.x ∧
      y = (loopStep env now wall inp g).1.player.pos.y ∧
      rad = brushRadius env (loopStep env now wall inp g).1.player.size
        (loopStep env now wall inp g).1.player.maxSpeed (min g.sz.w g.sz.h)
        (env.hypot (loopStep env now wall inp g).1.player.vel.x
          (loopStep env now wall inp g).1.player.vel.y)) ∧
    (g.player.size * (45/100) ≤ min g.sz.w g.sz.h * (12/100) →
      ∀ s1 s2 : ℚ, 0 ≤ s1 → s1 ≤ s2 →
        brushRadius env g.player.size g.player.maxSpeed (min g.sz.w g.sz.h) s1 ≤
        brushRadius env g.player.size g.player.maxSpeed (min g.sz.w g.sz.h) s2) ∧
    (g.player.size * (45/100) ≤ min g.sz.w g.sz.h * (12/100) →
      ∀ s : ℚ, 0 ≤ s →
        brushRadius env g.player.size g.player.maxSpeed (min g.sz.w g.sz.h) s ≤
        max 18 (min g.sz.w g.sz.h * (12/100))) := by
  have hMpos : 0 < (if g.player.maxSpeed = 0 then (400 : ℚ) else g.player.maxSpeed) := by
    split_ifs with hz
    · norm_num
    · exact lt_of_le_of_ne hM (Ne.symm hz)
  refine ⟨?_, ?_, ?_⟩
  · intro x y rad h
    unfold loopStep at h ⊢
    dsimp only at h ⊢
    by_cases hred : (epiloguePhase (dtOf now g.last) g).2.2 = true
    · rw [if_pos hred] at h
      exact absurd h (by simp)
    · rw [if_neg hred] at h ⊢
      dsimp only at h ⊢
      obtain ⟨hx, hy, hr⟩ := erasePhase_spec _ _ _ _ x y rad h
      simp only [jiggleErasePhase_player, erasePhase_player, jiggleAccPhase_player,
        reinkPhase_player, revealPhase_player, hintPhase_player, interactPhase_player,
        jiggleAccPhase_sz, reinkPhase_sz, revealPhase_sz, hintPhase_sz, interactPhase_sz,
        jigglePhase_sz, epiloguePhase_sz] at hx hy hr ⊢
      exact ⟨hx, hy, hr⟩
  · intro hbc s1 s2 hs0 h12
    unfold brushRadius
    refine max_le_max le_rfl (add_le_add_left ?_ _)
    refine mul_le_mul_of_nonneg_right ?_ (by linarith)
    refine hsqMono _ _ (le_min (by norm_num) (div_nonneg hs0 hMpos.le)) ?_
    exact min_le_min le_rfl (by gcongr)
  · intro hbc s hs
    have h01 := hsq01 (min 1 (s / (if g.player.maxSpeed = 0 then (400 : ℚ) else g.player.maxSpeed)))
      (le_min (by norm_num) (div_nonneg hs hMpos.le)) (min_le_left _ _)
    unfold brushRadius
    refine max_le (le_max_left _ _) (le_trans ?_ (le_max_right _ _))
    nlinarith [h01.1, h01.2, hbc]

theorem erase_brush_radius_witness :
    0 ≤ gSmall.player.maxSpeed ∧
    ((∀ x y rad, (loopStep envAx 50 0 inpSpace gSmall).2.mainBrush = some (x, y, rad) →
       x = (loopStep envAx 50 0 inpSpace gSmall).1.player.pos.x ∧
       y = (loopStep envAx 50 0 inpSpace gSmall).1.player.pos.y ∧
       rad = brushRadius envAx (loopStep envAx 50 0 inpSpace gSmall).1.player.size
         (loopStep envAx 50 0 inpSpace gSmall).1.player.maxSpeed
         (min gSmall.sz.w gSmall.sz.h)
         (envAx.hypot (loopStep envAx 50 0 inpSpace gSmall).1.player.vel.x
           (loopStep envAx 50 0 inpSpace gSmall).1.player.vel.y)) ∧
     (gSmall.player.size * (45/100) ≤ min gSmall.sz.w gSmall.sz.h * (12/100) →
       ∀ s1 s2 : ℚ, 0 ≤ s1 → s1 ≤ s2 →
         brushRadius envAx gSmall.player.size gSmall.player.maxSpeed
           (min gSmall.sz.w gSmall.sz.h) s1 ≤
         brushRadius envAx gSmall.player.size gSmall.player.maxSpeed
           (min gSmall.sz.w gSmall.sz.h) s2) ∧
     (gSmall.player.size * (45/100) ≤ min gSmall.sz.w gSmall.sz.h * (12/100) →
       ∀ s : ℚ, 0 ≤ s →
         brushRadius envAx gSmall.player.size gSmall.player.maxSpeed
           (min gSmall.sz.w gSmall.sz.h) s ≤
         max 18 (min gSmall.sz.w gSmall.sz.h * (12/100)))) :=
  ⟨by norm_num [gSmall],
    erase_brush_radius envAx 50 0 inpSpace gSmall (by norm_num [gSmall])
      (fun a b h1 h2 => h2) (fun a h1 h2 => ⟨h1, h2⟩)⟩

/-- Claim C4 (confirmed): after every kinematics update — in pointer-follow,
directional-accelerate and input-disallowed modes alike — the squared
Euclidean norm of the velocity is at most `maxSpeed²` (main.js:145-149; the
edge bounce at main.js:158-162 only attenuates components), hence the norm
is at most `maxSpeed + eps` for every `eps ≥ 0`.  Stated assuming `hypot`
computes the Euclidean norm at the point where the speed clamp reads it. -/
theorem player_update_speed_clamped (env : MathEnv) (dt : ℚ) (inp : Input) (allow : Bool)
    (sz : Size) (p : Player) (hM : 0 ≤ p.maxSpeed)
    (h0 : 0 ≤ env.hypot (p.modeStep env dt inp allow).vel.x (p.modeStep env dt inp allow).vel.y)
    (h2 : env.hypot (p.modeStep env dt inp allow).vel.x (p.modeStep env dt inp allow).vel.y ^ 2
        = (p.modeStep env dt inp allow).vel.x ^ 2 + (p.modeStep env dt inp allow).vel.y ^ 2) :
    (p.update env dt inp allow sz).vel.x ^ 2 + (p.update env dt inp allow sz).vel.y ^ 2
        ≤ p.maxSpeed ^ 2 ∧
    ∀ eps : ℚ, 0 ≤ eps →
      (p.update env dt inp allow sz).vel.x ^ 2 + (p.update env dt inp allow sz).vel.y ^ 2
        ≤ (p.maxSpeed + eps) ^ 2 := by
  have hbounce : ∀ (c : ℚ) (P : Prop) (inst : Decidable P),
      (if P then c * (-(3/10)) else c) ^ 2 ≤ c ^ 2 := by
    intro c P inst
    split_ifs
    · nlinarith [sq_nonneg c]
    · exact le_rfl
  have key : (p.update env dt inp allow sz).vel.x ^ 2 + (p.update env dt inp allow sz).vel.y ^ 2
      ≤ p.maxSpeed ^ 2 := by
    unfold Player.update
    dsimp only
    rw [Player.modeStep_maxSpeed]
    set q := p.modeStep env dt inp allow with hq
    set s := env.hypot q.vel.x q.vel.y with hs
    by_cases hc : p.maxSpeed < s
    · rw [if_pos hc]
      dsimp only [Vec2.scale]
      have hsn : s ≠ 0 := by
        intro hz
        rw [hz] at hc
        linarith
      have hbase : (q.vel.x * (p.maxSpeed / s)) ^ 2 + (q.vel.y * (p.maxSpeed / s)) ^ 2
          = p.maxSpeed ^ 2 := by
        have hsplit : (q.vel.x * (p.maxSpeed / s)) ^ 2 + (q.vel.y * (p.maxSpeed / s)) ^ 2
            = (p.maxSpeed / s) ^ 2 * (q.vel.x ^ 2 + q.vel.y ^ 2) := by ring
        rw [hsplit, ← h2, div_pow]
        field_simp
      refine le_trans (add_le_add (hbounce _ _ _) (hbounce _ _ _)) ?_
      refine le_trans (add_le_add (hbounce _ _ _) (hbounce _ _ _)) ?_
      exact le_of_eq hbase
    · rw [if_neg hc]
      push_neg at hc
      refine le_trans (add_le_add (hbounce _ _ _) (hbounce _ _ _)) ?_
      refine le_trans (add_le_add (hbounce _ _ _) (hbounce _ _ _)) ?_
      rw [← h2]
      exact pow_le_pow_left h0 hc 2
  exact ⟨key, fun eps heps => le_trans key (by nlinarith)⟩

theorem player_update_speed_clamped_witness :
    0 ≤ (Player.init szTest).maxSpeed ∧
    (((Player.init szTest).update envAx 0 inpNone true szTest).vel.x ^ 2 +
        ((Player.init szTest).update envAx 0 inpNone true szTest).vel.y ^ 2
        ≤ (Player.init szTest).maxSpeed ^ 2 ∧
      ∀ eps : ℚ, 0 ≤ eps →
        ((Player.init szTest).update envAx 0 inpNone true szTest).vel.x ^ 2 +
          ((Player.init szTest).update envAx 0 inpNone true szTest).vel.y ^ 2
          ≤ ((Player.init szTest).maxSpeed + eps) ^ 2) :=
  ⟨by norm_num [Player.init],
    player_update_speed_clamped envAx 0 inpNone true szTest (Player.init szTest)
      (by norm_num [Player.init])
      (by norm_num [Player.modeStep, Input.getPointerTarget, Input.getAxis, Input.rawAxis,
        Vec2.len, Vec2.normalize, Vec2.add, Vec2.scale, envAx, inpNone, Player.init, szTest,
        min_def, max_def])
      (by norm_num [Player.modeStep, Input.getPointerTarget, Input.getAxis, Input.rawAxis,
        Vec2.len, Vec2.normalize, Vec2.add, Vec2.scale, envAx, inpNone, Player.init, szTest,
        min_def, max_def])⟩

end Fngrnctr
